import Mathlib

/-!
Verification of the `PageMover` coordinator of the AppGridPageRearrange
extension (`utils/pageMover.js`), against its natural-language specification.

The coordinator is embedded shallowly as a pure state machine:

* the fields of the `PageMover` object (`_isMoving`, `_targetPageIndex`,
  `_rearrangedSignalId`) are fields of `MoverState`;
* the external collaborators are represented by the observable state they
  carry: the settings store's page list (`pages`), the grid's current page
  and page count (`currentPage`, `nPages`), and event counters/logs for
  redisplay requests, `goToPage` calls, and warn/error log lines;
* GLib signal and idle-source plumbing is made explicit: `rearrangedSignalId`
  holds the connected handler id (signal ids handed out by `connect` start
  at 1, so JS truthiness of an id coincides with `Option.isSome`), and
  `idlePending` records that a `GLib.idle_add` callback is queued and has
  not yet run;
* exceptions thrown by the external world (the settings write, `goToPage`,
  `disconnect` on a dead object) are injected through explicit boolean
  parameters; a `try`/`catch` becomes a case split on that boolean.

The claims under scrutiny only involve in-range move indices, where JS
`Array.prototype.splice` removes exactly the addressed element; the embedding
of the splice pair is faithful on that domain (for an out-of-range source
index JS would splice in an `undefined` hole, which no claim exercises).
-/

namespace AppGridPageRearrange

/-- A per-application `position` value in a page record: either a plain JS
number (as produced by the `PageManager.pages` getter) or a packed
`GLib.Variant` of type `"i"` (as required by the setter). -/
inductive PositionValue where
  | num (n : Int)
  | variant (n : Int)
deriving DecidableEq, Repr

/-- The placement properties stored for one application id in a page record
(`pageData[appId]` in the source); the only placement field is `position`. -/
structure AppProps where
  position : PositionValue
deriving DecidableEq, Repr

/-- One page record: a mapping from application id to placement properties. -/
abbrev PageRecord := List (String × AppProps)

/-- The full observable state of a `PageMover` together with the external
state it reads and writes and the log/event counters. -/
structure MoverState where
  /-- Whether `this._appDisplay` is non-null (set once in the constructor). -/
  hasAppDisplay : Bool
  /-- Field `this._pageManager.pages`: the settings store's ordered page layout. -/
  pages : List PageRecord
  /-- Field `this._appDisplay._grid.currentPage`. -/
  currentPage : Nat
  /-- Field `this._appDisplay._grid.nPages`. -/
  nPages : Nat
  /-- Field `this._isMoving`. -/
  isMoving : Bool
  /-- Field `this._targetPageIndex` (`null` ↦ `none`). -/
  targetPageIndex : Option Nat
  /-- Field `this._rearrangedSignalId` (`null` ↦ `none`; ids are nonzero). -/
  rearrangedSignalId : Option Nat
  /-- Next id `connect` will hand out (starts at 1, so ids are truthy). -/
  nextSignalId : Nat
  /-- A `GLib.idle_add` callback is queued and has not run yet. -/
  idlePending : Bool
  /-- Number of `this._appDisplay._redisplay()` calls issued. -/
  redisplays : Nat
  /-- Arguments of the `goToPage` calls issued, in order. -/
  navigations : List (Nat × Bool)
  /-- Number of `logger.warn` lines emitted. -/
  warnCount : Nat
  /-- Number of `logger.error` lines emitted. -/
  errorCount : Nat
deriving DecidableEq, Repr

/-- The state right after `new PageMover(logger, appDisplay)`: all operation
state cleared, no events observed yet. -/
def mkPageMover (hasAppDisplay : Bool) (pages : List PageRecord)
    (currentPage nPages : Nat) : MoverState :=
  { hasAppDisplay := hasAppDisplay
    pages := pages
    currentPage := currentPage
    nPages := nPages
    isMoving := false
    targetPageIndex := none
    rearrangedSignalId := none
    nextSignalId := 1
    idlePending := false
    redisplays := 0
    navigations := []
    warnCount := 0
    errorCount := 0 }

/-- JS `arr.splice(i, 1)` on the array part: drop the element at index `i`
(no-op when `i` is past the end). -/
def spliceRemoveAt (l : List α) (i : Nat) : List α :=
  l.take i ++ l.drop (i + 1)

/-- JS `arr.splice(i, 0, x)`: insert `x` at index `i` (clamped to the
length, as `take` clamps). -/
def spliceInsertAt (l : List α) (i : Nat) (x : α) : List α :=
  l.take i ++ x :: l.drop i

/-- The data manipulation of `_executeSingleMove` on the fetched JS array:
`const pageToMove = pagesJS.splice(currentPageIndex, 1)[0];
 pagesJS.splice(newPageIndex, 0, pageToMove);`. -/
def movePagesSplice (pages : List PageRecord)
    (currentPageIndex newPageIndex : Nat) : List PageRecord :=
  match pages[currentPageIndex]? with
  | some pageToMove =>
      spliceInsertAt (spliceRemoveAt pages currentPageIndex) newPageIndex pageToMove
  | none => spliceRemoveAt pages currentPageIndex

/-- Body of the `_normalizePages` loop on one app's properties: a plain
number is wrapped as `new GLib.Variant("i", positionValue)`, anything else
is left alone. -/
def normalizeProps (properties : AppProps) : AppProps :=
  match properties.position with
  | .num n => { position := .variant n }
  | v => { position := v }

/-- Method `_normalizePages`: wrap every plain-number `position` of every app entry
of every page into a `GLib.Variant`. -/
def normalizePages (pages : List PageRecord) : List PageRecord :=
  pages.map fun pageData => pageData.map fun e => (e.1, normalizeProps e.2)

/-- Method `_executeSingleMove(currentPageIndex, newPageIndex)`.  `writeThrows`
injects an exception at the `this._pageManager.pages = pagesJS` assignment
(the `catch` branch of the source). -/
def executeSingleMove (s : MoverState) (currentPageIndex newPageIndex : Nat)
    (writeThrows : Bool) : MoverState :=
  if !s.hasAppDisplay || s.isMoving then
    -- "Move already in progress, aborting." (debug log only)
    s
  else
    -- mark busy, record target, connect the 'view-loaded' listener
    let s1 : MoverState :=
      { s with isMoving := true,
               targetPageIndex := some newPageIndex,
               rearrangedSignalId := some s.nextSignalId,
               nextSignalId := s.nextSignalId + 1 }
    -- read, splice, normalize
    let pagesJS := normalizePages (movePagesSplice s1.pages currentPageIndex newPageIndex)
    if writeThrows then
      -- catch: log error, disconnect if still attached, reset everything
      let s2 := { s1 with errorCount := s1.errorCount + 1 }
      let s3 :=
        if s2.rearrangedSignalId.isSome && s2.hasAppDisplay then
          { s2 with rearrangedSignalId := none }
        else s2
      { s3 with targetPageIndex := none, isMoving := false }
    else
      -- write succeeds, then _redisplay() is triggered
      { s1 with pages := pagesJS, redisplays := s1.redisplays + 1 }

/-- The 'view-loaded' handler connected in `_executeSingleMove`: on a stale
delivery (target already cleared or display gone) it warns and only cleans
the listener up; otherwise it disconnects itself and queues the idle
navigation callback. -/
def onViewLoaded (s : MoverState) : MoverState :=
  if s.targetPageIndex.isNone || !s.hasAppDisplay then
    let s1 := { s with warnCount := s.warnCount + 1 }
    if s1.rearrangedSignalId.isSome && s1.hasAppDisplay then
      { s1 with rearrangedSignalId := none }
    else s1
  else
    let s1 :=
      if s.rearrangedSignalId.isSome && s.hasAppDisplay then
        { s with rearrangedSignalId := none }
      else s
    { s1 with idlePending := true }

/-- The `GLib.idle_add` callback queued by the 'view-loaded' handler.
`navThrows` injects an exception from `goToPage`; the `finally` block always
clears the target and releases the lock. The callback returns
`GLib.SOURCE_REMOVE`, so the idle source is gone afterwards. -/
def idleNavigate (s : MoverState) (navThrows : Bool) : MoverState :=
  if !s.hasAppDisplay || s.targetPageIndex.isNone then
    -- "State changed before idle navigation could run."
    { s with warnCount := s.warnCount + 1, isMoving := false, idlePending := false }
  else
    let t := s.targetPageIndex.getD 0
    let s1 :=
      if navThrows then { s with errorCount := s.errorCount + 1 }
      else { s with navigations := s.navigations ++ [(t, false)] }
    { s1 with targetPageIndex := none, isMoving := false, idlePending := false }

/-- Method `destroy()`: disconnect (exceptions from a dead object suppressed by the
`try`/`catch`, hence the inert flag) and clear all operation state. -/
def destroy (s : MoverState) (_disconnectThrows : Bool) : MoverState :=
  { s with rearrangedSignalId := none, isMoving := false, targetPageIndex := none }

/-- Public operation `movePageLeft()`. -/
def movePageLeft (s : MoverState) (writeThrows : Bool) : MoverState :=
  if !s.hasAppDisplay then s
  else if 0 < s.currentPage then
    executeSingleMove s s.currentPage (s.currentPage - 1) writeThrows
  else s

/-- Public operation `movePageRight()`. -/
def movePageRight (s : MoverState) (writeThrows : Bool) : MoverState :=
  if !s.hasAppDisplay then s
  else if s.currentPage < s.nPages - 1 then
    executeSingleMove s s.currentPage (s.currentPage + 1) writeThrows
  else s

/-- Public operation `moveToFirstPage()`. -/
def moveToFirstPage (s : MoverState) (writeThrows : Bool) : MoverState :=
  if !s.hasAppDisplay then s
  else if 0 < s.currentPage then
    executeSingleMove s s.currentPage 0 writeThrows
  else s

/-- Public operation `moveToLastPage()`. -/
def moveToLastPage (s : MoverState) (writeThrows : Bool) : MoverState :=
  if !s.hasAppDisplay then s
  else if s.currentPage < s.nPages - 1 then
    executeSingleMove s s.currentPage (s.nPages - 1) writeThrows
  else s

/-! ### Event layer

Executions of the coordinator are sequences of atomic events on the GLib
main loop: the four public menu actions, a raw `_executeSingleMove` request,
delivery of the 'view-loaded' signal (which runs the connected handler, if
any), the queued idle callback firing, and `destroy()`. -/

/-- One main-loop event acting on the coordinator. -/
inductive Event where
  | moveLeft (writeThrows : Bool)
  | moveRight (writeThrows : Bool)
  | moveFirst (writeThrows : Bool)
  | moveLast (writeThrows : Bool)
  | execMove (src dst : Nat) (writeThrows : Bool)
  | viewLoaded
  | idleFired (navThrows : Bool)
  | shutdown (disconnectThrows : Bool)
deriving DecidableEq, Repr

/-- Effect of one event. The 'view-loaded' handler only runs while it is
connected; the idle callback only runs while its source is queued (it
returns `GLib.SOURCE_REMOVE`). -/
def step (s : MoverState) : Event → MoverState
  | .moveLeft w => movePageLeft s w
  | .moveRight w => movePageRight s w
  | .moveFirst w => moveToFirstPage s w
  | .moveLast w => moveToLastPage s w
  | .execMove a b w => executeSingleMove s a b w
  | .viewLoaded => if s.rearrangedSignalId.isSome then onViewLoaded s else s
  | .idleFired nav => if s.idlePending then idleNavigate s nav else s
  | .shutdown d => destroy s d

/-- Run a sequence of events. -/
def run (s : MoverState) : List Event → MoverState
  | [] => s
  | e :: es => run (step s e) es

/-- Events that issue a move request. -/
def isMoveEvent : Event → Bool
  | .moveLeft _ | .moveRight _ | .moveFirst _ | .moveLast _
  | .execMove _ _ _ => true
  | .viewLoaded | .idleFired _ | .shutdown _ => false

/-- A trace is prompt-idle when no move request is issued while a queued
idle callback has not yet run (on the real main loop, idle sources run as
soon as the loop drains, before the next user action). -/
def promptIdle (s : MoverState) : List Event → Bool
  | [] => true
  | e :: es => (!isMoveEvent e || !s.idlePending) && promptIdle (step s e) es

/-! ### Spec-side definitions and fixtures -/

/-- Spec-side description of the move (from the spec's words): remove the
record at `src` and reinsert it at `dst`. -/
def removeThenReinsert (l : List PageRecord) (src dst : Nat) : List PageRecord :=
  match l[src]? with
  | some x => (l.eraseIdx src).insertIdx dst x
  | none => l

/-- The `position` value is in the packed (typed-variant) form. -/
def isVariantPos : PositionValue → Bool
  | .variant _ => true
  | .num _ => false

/-- Underlying integer of a `position` value, packed or not. -/
def posInt : PositionValue → Int
  | .num n => n
  | .variant n => n

/-- Every app entry of the page has a packed `position`. -/
def pageNormalized (page : PageRecord) : Bool :=
  page.all fun e => isVariantPos e.2.position

/-- Every page of the layout is normalized. -/
def NormalizedLayout (pages : List PageRecord) : Bool :=
  pages.all pageNormalized

/-- Forget the packing of every position (for value-preservation claims). -/
def stripPage (page : PageRecord) : List (String × Int) :=
  page.map fun e => (e.1, posInt e.2.position)

/-- A one-app page record in the packed form, for concrete scenarios. -/
def pg (a : String) : PageRecord := [(a, ⟨.variant 0⟩)]

/-- Five-page layout `[A, B, C, D, E]`, current page 4. -/
def demo5 : MoverState :=
  mkPageMover true [pg "A", pg "B", pg "C", pg "D", pg "E"] 4 5

/-- Three-page layout `[{appA}, {appB}, {appC}]`, current page 2. -/
def demo3 : MoverState :=
  mkPageMover true [pg "appA", pg "appB", pg "appC"] 2 3

/-- A coordinator with a move already in flight. -/
def busyDemo : MoverState :=
  { demo3 with isMoving := true, targetPageIndex := some 0,
               rearrangedSignalId := some 1, nextSignalId := 2 }

/-! ### Helper lemmas -/

lemma eraseIdx_eq_spliceRemoveAt (l : List α) (i : Nat) :
    l.eraseIdx i = spliceRemoveAt l i := by
  induction l generalizing i with
  | nil => simp [spliceRemoveAt, List.eraseIdx]
  | cons a as ih =>
    cases i with
    | zero => simp [spliceRemoveAt, List.eraseIdx]
    | succ n => simp [spliceRemoveAt, List.eraseIdx, ih n]

lemma insertIdx_eq_spliceInsertAt (l : List α) (i : Nat) (x : α)
    (h : i ≤ l.length) : l.insertIdx i x = spliceInsertAt l i x := by
  induction l generalizing i with
  | nil =>
    have hi : i = 0 := by simpa using h
    subst hi
    simp [spliceInsertAt]
  | cons a as ih =>
    cases i with
    | zero => simp [spliceInsertAt]
    | succ n =>
      simp only [List.length_cons, Nat.succ_le_succ_iff] at h
      simp [spliceInsertAt, List.insertIdx_succ_cons, ih n h]

lemma length_spliceRemoveAt (l : List α) (i : Nat) (h : i < l.length) :
    (spliceRemoveAt l i).length = l.length - 1 := by
  simp only [spliceRemoveAt, List.length_append, List.length_take, List.length_drop]
  omega

lemma movePagesSplice_eq_removeThenReinsert (l : List PageRecord) (src dst : Nat)
    (hs : src < l.length) (hd : dst < l.length) :
    movePagesSplice l src dst = removeThenReinsert l src dst := by
  unfold movePagesSplice removeThenReinsert
  rw [List.getElem?_eq_getElem hs]
  dsimp only
  rw [eraseIdx_eq_spliceRemoveAt, insertIdx_eq_spliceInsertAt]
  rw [length_spliceRemoveAt l src hs]
  omega

lemma spliceRemoveAt_subset (l : List α) (i : Nat) :
    ∀ p ∈ spliceRemoveAt l i, p ∈ l := by
  intro p hp
  simp only [spliceRemoveAt, List.mem_append] at hp
  rcases hp with h | h
  · exact List.take_subset _ _ h
  · exact List.drop_subset _ _ h

lemma movePagesSplice_subset (l : List PageRecord) (i j : Nat) :
    ∀ p ∈ movePagesSplice l i j, p ∈ l := by
  intro p hp
  unfold movePagesSplice at hp
  cases hx : l[i]? with
  | none =>
    rw [hx] at hp
    exact spliceRemoveAt_subset l i p hp
  | some x =>
    have hi : i < l.length := by
      by_contra hge
      rw [List.getElem?_eq_none (by omega)] at hx
      exact Option.noConfusion hx
    rw [hx] at hp
    simp only [spliceInsertAt, List.mem_append, List.mem_cons] at hp
    rcases hp with h | h | h
    · exact spliceRemoveAt_subset l i p (List.take_subset _ _ h)
    · subst h
      rw [List.getElem?_eq_getElem hi] at hx
      exact Option.some.inj hx ▸ List.getElem_mem hi
    · exact spliceRemoveAt_subset l i p (List.drop_subset _ _ h)

lemma normalizeProps_eq_self (p : AppProps) (h : isVariantPos p.position = true) :
    normalizeProps p = p := by
  obtain ⟨pos⟩ := p
  cases pos with
  | num n => simp [isVariantPos] at h
  | variant n => simp [normalizeProps]

lemma isVariantPos_normalizeProps (p : AppProps) :
    isVariantPos (normalizeProps p).position = true := by
  obtain ⟨pos⟩ := p
  cases pos <;> simp [normalizeProps, isVariantPos]

lemma posInt_normalizeProps (p : AppProps) :
    posInt (normalizeProps p).position = posInt p.position := by
  obtain ⟨pos⟩ := p
  cases pos <;> simp [normalizeProps, posInt]

lemma page_map_normalize_eq_self (page : PageRecord)
    (h : pageNormalized page = true) :
    (page.map fun e => (e.1, normalizeProps e.2)) = page := by
  induction page with
  | nil => rfl
  | cons e rest ih =>
    simp only [pageNormalized, List.all_cons, Bool.and_eq_true] at h
    simp only [List.map_cons, normalizeProps_eq_self e.2 h.1, Prod.mk.eta,
      ih h.2]

lemma normalizePages_eq_self (l : List PageRecord)
    (h : ∀ p ∈ l, pageNormalized p = true) : normalizePages l = l := by
  unfold normalizePages
  induction l with
  | nil => rfl
  | cons page rest ih =>
    simp only [List.map_cons,
      page_map_normalize_eq_self page (h page (by simp)),
      ih (fun p hp => h p (by simp [hp]))]

lemma normalizedLayout_normalizePages (l : List PageRecord) :
    NormalizedLayout (normalizePages l) = true := by
  simp only [NormalizedLayout, normalizePages, List.all_eq_true, List.mem_map]
  rintro page ⟨q, _, rfl⟩
  simp only [pageNormalized, List.all_eq_true, List.mem_map]
  rintro e ⟨f, _, rfl⟩
  exact isVariantPos_normalizeProps f.2

lemma stripPage_normalize (page : PageRecord) :
    stripPage (page.map fun e => (e.1, normalizeProps e.2)) = stripPage page := by
  simp only [stripPage, List.map_map]
  apply List.map_congr_left
  intro e _
  simp [posInt_normalizeProps]

lemma map_stripPage_normalizePages (l : List PageRecord) :
    (normalizePages l).map stripPage = l.map stripPage := by
  simp only [normalizePages, List.map_map]
  apply List.map_congr_left
  intro page _
  exact stripPage_normalize page

/-! ### The listener/busy invariant -/

/-- Inductive strengthening of the listener invariant: a listener is only
live while a move is in flight; a queued idle callback implies the listener
was already disconnected; a pending target (with the display available)
implies the busy flag. -/
def ListenerInv (s : MoverState) : Prop :=
  (s.isMoving = false → s.rearrangedSignalId = none) ∧
  (s.idlePending = true → s.rearrangedSignalId = none) ∧
  (s.hasAppDisplay = true → s.targetPageIndex ≠ none → s.isMoving = true)

lemma inv_mkPageMover (hasApp : Bool) (pages : List PageRecord) (cur np : Nat) :
    ListenerInv (mkPageMover hasApp pages cur np) := by
  refine ⟨fun _ => rfl, fun _ => rfl, fun _ h => absurd rfl h⟩

lemma inv_executeSingleMove (s : MoverState) (a b : Nat) (w : Bool)
    (hInv : ListenerInv s) (hPend : s.idlePending = false) :
    ListenerInv (executeSingleMove s a b w) := by
  obtain ⟨app, pgs, cur, np, mov, tgt, sig, nid, idp, rd, nav, wc, ec⟩ := s
  simp only [ListenerInv] at hInv ⊢
  cases app <;> cases mov <;> cases w <;>
    simp_all [executeSingleMove]

lemma inv_movePageLeft (s : MoverState) (w : Bool)
    (hInv : ListenerInv s) (hPend : s.idlePending = false) :
    ListenerInv (movePageLeft s w) := by
  unfold movePageLeft
  split
  · exact hInv
  · split
    · exact inv_executeSingleMove s _ _ w hInv hPend
    · exact hInv

lemma inv_movePageRight (s : MoverState) (w : Bool)
    (hInv : ListenerInv s) (hPend : s.idlePending = false) :
    ListenerInv (movePageRight s w) := by
  unfold movePageRight
  split
  · exact hInv
  · split
    · exact inv_executeSingleMove s _ _ w hInv hPend
    · exact hInv

lemma inv_moveToFirstPage (s : MoverState) (w : Bool)
    (hInv : ListenerInv s) (hPend : s.idlePending = false) :
    ListenerInv (moveToFirstPage s w) := by
  unfold moveToFirstPage
  split
  · exact hInv
  · split
    · exact inv_executeSingleMove s _ _ w hInv hPend
    · exact hInv

lemma inv_moveToLastPage (s : MoverState) (w : Bool)
    (hInv : ListenerInv s) (hPend : s.idlePending = false) :
    ListenerInv (moveToLastPage s w) := by
  unfold moveToLastPage
  split
  · exact hInv
  · split
    · exact inv_executeSingleMove s _ _ w hInv hPend
    · exact hInv

lemma inv_onViewLoaded (s : MoverState) (hInv : ListenerInv s)
    (hSig : s.rearrangedSignalId.isSome = true) :
    ListenerInv (onViewLoaded s) := by
  obtain ⟨app, pgs, cur, np, mov, tgt, sig, nid, idp, rd, nav, wc, ec⟩ := s
  simp only [ListenerInv] at hInv ⊢
  cases app <;> cases mov <;> cases idp <;> cases tgt <;>
    simp_all [onViewLoaded]

lemma inv_idleNavigate (s : MoverState) (nav : Bool) (hInv : ListenerInv s)
    (hPend : s.idlePending = true) : ListenerInv (idleNavigate s nav) := by
  obtain ⟨app, pgs, cur, np, mov, tgt, sig, nid, idp, rd, nvs, wc, ec⟩ := s
  simp only [ListenerInv] at hInv ⊢
  cases app <;> cases mov <;> cases nav <;> cases tgt <;>
    simp_all [idleNavigate]

lemma inv_destroy (s : MoverState) (d : Bool) : ListenerInv (destroy s d) := by
  exact ⟨fun _ => rfl, fun _ => rfl, fun _ h => absurd rfl h⟩

lemma inv_step (s : MoverState) (e : Event) (hInv : ListenerInv s)
    (hMove : isMoveEvent e = true → s.idlePending = false) :
    ListenerInv (step s e) := by
  cases e with
  | moveLeft w => exact inv_movePageLeft s w hInv (hMove rfl)
  | moveRight w => exact inv_movePageRight s w hInv (hMove rfl)
  | moveFirst w => exact inv_moveToFirstPage s w hInv (hMove rfl)
  | moveLast w => exact inv_moveToLastPage s w hInv (hMove rfl)
  | execMove a b w => exact inv_executeSingleMove s a b w hInv (hMove rfl)
  | viewLoaded =>
    simp only [step]
    split
    case isTrue h => exact inv_onViewLoaded s hInv h
    case isFalse h => exact hInv
  | idleFired nav =>
    simp only [step]
    split
    case isTrue h => exact inv_idleNavigate s nav hInv h
    case isFalse h => exact hInv
  | shutdown d => exact inv_destroy s d



lemma inv_run (s : MoverState) (es : List Event) (hInv : ListenerInv s)
    (h : promptIdle s es = true) : ListenerInv (run s es) := by
  induction es generalizing s with
  | nil => exact hInv
  | cons e rest ih =>
    simp only [promptIdle, Bool.and_eq_true, Bool.or_eq_true,
      Bool.not_eq_true'] at h
    refine ih (step s e) (inv_step s e hInv fun hm => ?_) h.2
    rcases h.1 with hm' | hp
    · rw [hm] at hm'
      exact Bool.noConfusion hm'
    · exact hp

/-! ### Claims -/

/-- C1: for every layout and every in-range move request `(src, dst)`,
executing a move transforms the (already normalized) layout by removing the
record at `src` and reinserting it at `dst`; in particular moving index 4 to
index 1 in the 5-page layout `[A, B, C, D, E]` yields `[A, E, B, C, D]`. -/
theorem move_is_remove_then_reinsert :
    (∀ (s : MoverState) (src dst : Nat),
      s.hasAppDisplay = true → s.isMoving = false →
      NormalizedLayout s.pages = true →
      src < s.pages.length → dst < s.pages.length →
      (executeSingleMove s src dst false).pages = removeThenReinsert s.pages src dst) ∧
    (executeSingleMove demo5 4 1 false).pages =
      [pg "A", pg "E", pg "B", pg "C", pg "D"] := by
  constructor
  · intro s src dst hApp hBusy hNorm hs hd
    have hpages : (executeSingleMove s src dst false).pages
        = normalizePages (movePagesSplice s.pages src dst) := by
      simp [executeSingleMove, hApp, hBusy]
    rw [hpages,
      normalizePages_eq_self _ (fun p hp =>
        by
          rw [NormalizedLayout, List.all_eq_true] at hNorm
          exact hNorm p (movePagesSplice_subset s.pages src dst p hp)),
      movePagesSplice_eq_removeThenReinsert s.pages src dst hs hd]
  · decide

/-- Witness for C1 at the five-page layout, move 4 → 1. -/
theorem move_is_remove_then_reinsert_witness :
    (executeSingleMove demo5 4 1 false).pages = removeThenReinsert demo5.pages 4 1 :=
  move_is_remove_then_reinsert.1 demo5 4 1 rfl rfl (by decide) (by decide) (by decide)

/-- C2: while a move is in flight (`_isMoving` true), any further move
request — through `_executeSingleMove` or any public operation — leaves the
whole state unchanged: no layout change, no second listener, no change to
the pending target, no error. -/
theorem busy_move_request_dropped (s : MoverState) (a b : Nat) (w : Bool)
    (h : s.isMoving = true) :
    executeSingleMove s a b w = s ∧ movePageLeft s w = s ∧
    movePageRight s w = s ∧ moveToFirstPage s w = s ∧ moveToLastPage s w = s := by
  have hexec : ∀ a b : Nat, executeSingleMove s a b w = s := by
    intro a b
    simp [executeSingleMove, h]
  exact ⟨hexec a b,
    by simp [movePageLeft, hexec],
    by simp [movePageRight, hexec],
    by simp [moveToFirstPage, hexec],
    by simp [moveToLastPage, hexec]⟩

/-- Witness for C2 on a coordinator with a move in flight. -/
theorem busy_move_request_dropped_witness :
    executeSingleMove busyDemo 0 1 false = busyDemo ∧
    movePageLeft busyDemo false = busyDemo ∧
    movePageRight busyDemo false = busyDemo ∧
    moveToFirstPage busyDemo false = busyDemo ∧
    moveToLastPage busyDemo false = busyDemo :=
  busy_move_request_dropped busyDemo 0 1 false rfl

/-- C3: from layout `[{appA}, {appB}, {appC}]` at page 2, `moveToFirstPage`
followed by the view-loaded signal and the idle callback produces layout
`[{appC}, {appA}, {appB}]`, exactly one redisplay request, one navigation to
page 0, and a final non-busy, fully cleared state. -/
theorem moveToFirstPage_end_to_end :
    run demo3 [.moveFirst false, .viewLoaded, .idleFired false] =
      { demo3 with pages := [pg "appC", pg "appA", pg "appB"],
                   nextSignalId := 2,
                   redisplays := 1,
                   navigations := [(0, false)] } := by
  decide

/-- C4: if the settings write throws during a move, the listener is
disconnected, the pending destination and busy flag are cleared, the error
is reported, and nothing else happened: the layout is unchanged, no
redisplay was requested and no navigation attempted. -/
theorem write_failure_cleanup (s : MoverState) (a b : Nat)
    (hApp : s.hasAppDisplay = true) (hBusy : s.isMoving = false) :
    (executeSingleMove s a b true).rearrangedSignalId = none ∧
    (executeSingleMove s a b true).targetPageIndex = none ∧
    (executeSingleMove s a b true).isMoving = false ∧
    (executeSingleMove s a b true).errorCount = s.errorCount + 1 ∧
    (executeSingleMove s a b true).pages = s.pages ∧
    (executeSingleMove s a b true).redisplays = s.redisplays ∧
    (executeSingleMove s a b true).navigations = s.navigations := by
  simp [executeSingleMove, hApp, hBusy]

/-- Witness for C4 at the three-page layout. -/
theorem write_failure_cleanup_witness :
    (executeSingleMove demo3 2 0 true).rearrangedSignalId = none ∧
    (executeSingleMove demo3 2 0 true).targetPageIndex = none ∧
    (executeSingleMove demo3 2 0 true).isMoving = false ∧
    (executeSingleMove demo3 2 0 true).errorCount = demo3.errorCount + 1 ∧
    (executeSingleMove demo3 2 0 true).pages = demo3.pages ∧
    (executeSingleMove demo3 2 0 true).redisplays = demo3.redisplays ∧
    (executeSingleMove demo3 2 0 true).navigations = demo3.navigations :=
  write_failure_cleanup demo3 2 0 rfl rfl

/-- C5: the layout a successful move writes back is fully wrapped (every
`position` is in the typed-variant form), wrapping preserves the app ids and
underlying integers of the spliced layout, and an already wrapped layout is
written back exactly as spliced (already-wrapped values untouched). -/
theorem write_is_normalized (s : MoverState) (a b : Nat)
    (hApp : s.hasAppDisplay = true) (hBusy : s.isMoving = false) :
    NormalizedLayout (executeSingleMove s a b false).pages = true ∧
    (executeSingleMove s a b false).pages.map stripPage =
      (movePagesSplice s.pages a b).map stripPage ∧
    (NormalizedLayout s.pages = true →
      (executeSingleMove s a b false).pages = movePagesSplice s.pages a b) := by
  have hpages : (executeSingleMove s a b false).pages
      = normalizePages (movePagesSplice s.pages a b) := by
    simp [executeSingleMove, hApp, hBusy]
  rw [hpages]
  refine ⟨normalizedLayout_normalizePages _, map_stripPage_normalizePages _, ?_⟩
  intro hNorm
  refine normalizePages_eq_self _ fun p hp => ?_
  rw [NormalizedLayout, List.all_eq_true] at hNorm
  exact hNorm p (movePagesSplice_subset s.pages a b p hp)

/-- Witness for C5 at the three-page layout. -/
theorem write_is_normalized_witness :
    NormalizedLayout (executeSingleMove demo3 2 0 false).pages = true ∧
    (executeSingleMove demo3 2 0 false).pages.map stripPage =
      (movePagesSplice demo3.pages 2 0).map stripPage ∧
    (NormalizedLayout demo3.pages = true →
      (executeSingleMove demo3 2 0 false).pages = movePagesSplice demo3.pages 2 0) :=
  write_is_normalized demo3 2 0 rfl rfl

/-- C6: at page index 0, `movePageLeft` and `moveToFirstPage` change nothing
(in particular the busy flag stays clear); at the last page index,
`movePageRight` and `moveToLastPage` likewise change nothing. -/
theorem boundary_noops (s : MoverState) (w : Bool) :
    (s.currentPage = 0 →
      movePageLeft s w = s ∧ moveToFirstPage s w = s) ∧
    (s.currentPage = s.nPages - 1 →
      movePageRight s w = s ∧ moveToLastPage s w = s) := by
  constructor
  · intro h
    constructor <;> simp [movePageLeft, moveToFirstPage, h]
  · intro h
    constructor <;> simp [movePageRight, moveToLastPage, h]

/-- Witness for C6 at a two-page layout (page 0 for the left/first no-ops,
page 1 = last for the right/last no-ops). -/
theorem boundary_noops_witness :
    (movePageLeft (mkPageMover true [pg "A", pg "B"] 0 2) false =
        mkPageMover true [pg "A", pg "B"] 0 2 ∧
      moveToFirstPage (mkPageMover true [pg "A", pg "B"] 0 2) false =
        mkPageMover true [pg "A", pg "B"] 0 2) ∧
    (movePageRight (mkPageMover true [pg "A", pg "B"] 1 2) false =
        mkPageMover true [pg "A", pg "B"] 1 2 ∧
      moveToLastPage (mkPageMover true [pg "A", pg "B"] 1 2) false =
        mkPageMover true [pg "A", pg "B"] 1 2) :=
  ⟨(boundary_noops (mkPageMover true [pg "A", pg "B"] 0 2) false).1 rfl,
   (boundary_noops (mkPageMover true [pg "A", pg "B"] 1 2) false).2 (by decide)⟩

/-- C7: if `goToPage` throws in the idle callback, the error is logged and
the `finally` block still clears the pending index and the busy flag (and
touches neither the layout nor the navigation history), so a navigation
failure never leaves the coordinator busy. -/
theorem navigation_failure_clears_state (s : MoverState) (t : Nat)
    (hApp : s.hasAppDisplay = true) (hT : s.targetPageIndex = some t) :
    (idleNavigate s true).errorCount = s.errorCount + 1 ∧
    (idleNavigate s true).targetPageIndex = none ∧
    (idleNavigate s true).isMoving = false ∧
    (idleNavigate s true).idlePending = false ∧
    (idleNavigate s true).pages = s.pages ∧
    (idleNavigate s true).navigations = s.navigations := by
  simp [idleNavigate, hApp, hT]

/-- Witness for C7 on an in-flight coordinator. -/
theorem navigation_failure_clears_state_witness :
    (idleNavigate busyDemo true).errorCount = busyDemo.errorCount + 1 ∧
    (idleNavigate busyDemo true).targetPageIndex = none ∧
    (idleNavigate busyDemo true).isMoving = false ∧
    (idleNavigate busyDemo true).idlePending = false ∧
    (idleNavigate busyDemo true).pages = busyDemo.pages ∧
    (idleNavigate busyDemo true).navigations = busyDemo.navigations :=
  navigation_failure_clears_state busyDemo 0 rfl rfl

/-- C8: a 'view-loaded' delivery after the pending target was already
cleared is a warning-only no-op: it navigates nowhere, queues nothing,
throws nothing, and leaves the layout and operation state unchanged. -/
theorem stale_view_loaded_noop (s : MoverState)
    (h : s.targetPageIndex = none) :
    (onViewLoaded s).pages = s.pages ∧
    (onViewLoaded s).isMoving = s.isMoving ∧
    (onViewLoaded s).targetPageIndex = none ∧
    (onViewLoaded s).navigations = s.navigations ∧
    (onViewLoaded s).idlePending = s.idlePending ∧
    (onViewLoaded s).redisplays = s.redisplays ∧
    (onViewLoaded s).warnCount = s.warnCount + 1 := by
  obtain ⟨app, pgs, cur, np, mov, tgt, sig, nid, idp, rd, nav, wc, ec⟩ := s
  subst h
  cases app <;> cases sig <;> simp [onViewLoaded]

/-- Witness for C8 on an idle coordinator. -/
theorem stale_view_loaded_noop_witness :
    (onViewLoaded demo3).pages = demo3.pages ∧
    (onViewLoaded demo3).isMoving = demo3.isMoving ∧
    (onViewLoaded demo3).targetPageIndex = none ∧
    (onViewLoaded demo3).navigations = demo3.navigations ∧
    (onViewLoaded demo3).idlePending = demo3.idlePending ∧
    (onViewLoaded demo3).redisplays = demo3.redisplays ∧
    (onViewLoaded demo3).warnCount = demo3.warnCount + 1 :=
  stale_view_loaded_noop demo3 rfl

/-- C9: `destroy` is total (exceptions from `disconnect` are suppressed),
always leaves the busy flag, pending index, and listener cleared, and a
second `destroy` is the identity — so calling it repeatedly from any state
is safe. -/
theorem destroy_idempotent_and_clears (s : MoverState) (d1 d2 : Bool) :
    (destroy s d1).isMoving = false ∧
    (destroy s d1).targetPageIndex = none ∧
    (destroy s d1).rearrangedSignalId = none ∧
    destroy (destroy s d1) d2 = destroy s d1 := by
  simp [destroy]

/-- C10, counterexample to the claim as stated: a destroy racing a queued
idle callback, followed by a fresh move, ends a completed event (the stale
idle callback) with the busy flag clear but the second move's listener still
connected. -/
theorem listener_only_while_moving_counterexample :
    (run demo3 [.moveFirst false, .viewLoaded, .shutdown false,
        .moveFirst false, .idleFired false]).isMoving = false ∧
    (run demo3 [.moveFirst false, .viewLoaded, .shutdown false,
        .moveFirst false, .idleFired false]).rearrangedSignalId = some 2 := by
  decide

/-- C10 (amended): along any event sequence in which no move request is
accepted while an idle callback is still queued (the prompt-idle traces, the
only ones the GLib main loop produces when idle sources run before the next
user action), every completed event leaves the coordinator with the property
that a clear busy flag implies no registered view-loaded listener. -/
theorem listener_only_while_moving (hasApp : Bool) (pages : List PageRecord)
    (cur np : Nat) (es : List Event)
    (h : promptIdle (mkPageMover hasApp pages cur np) es = true)
    (hIdle : (run (mkPageMover hasApp pages cur np) es).isMoving = false) :
    (run (mkPageMover hasApp pages cur np) es).rearrangedSignalId = none :=
  (inv_run (mkPageMover hasApp pages cur np) es
    (inv_mkPageMover hasApp pages cur np) h).1 hIdle

/-- Witness for C10 (amended) on the happy-path trace. -/
theorem listener_only_while_moving_witness :
    (run (mkPageMover true [pg "appA", pg "appB", pg "appC"] 2 3)
      [.moveFirst false, .viewLoaded, .idleFired false]).rearrangedSignalId = none :=
  listener_only_while_moving true [pg "appA", pg "appB", pg "appC"] 2 3
    [.moveFirst false, .viewLoaded, .idleFired false] (by decide) (by decide)

end AppGridPageRearrange
